import Mathlib

/-!
Shallow embedding of the UCI engine-session orchestrator in `src/main.py`
(`parse_uci_move` and `get_best_move`).

Modelling choices, all taken from the source:

* An engine run is abstracted by `EngineIO`: the finite list of lines the
  engine writes to stdout before closing the stream, the lines it writes to
  stderr, and a predicate `writeOk k` saying whether the k-th write to the
  engine stdin succeeds (a failing write raises in `process.stdin.write` or
  `drain`).
* `asyncio`'s `StreamReader.readline` returns the empty byte string at
  end-of-stream, immediately and forever.  The read loops in the source
  (`while True: line = await readline(); if line == ...: break`) therefore
  never terminate once stdout is exhausted without the awaited terminator:
  the stripped empty line never equals `uciok`/`readyok` and never starts
  with `bestmove`.  The loop functions below return `none` for that case,
  i.e. `none` models non-termination of the Python coroutine.
* `log_lines` is the transcript: `>>> cmd` for sent commands, `<<< line`
  for non-empty stripped stdout lines, `!!! line` for stderr lines and the
  final `!!! Exception: ...` entry of the failure branch.  The stderr drain
  task appends its `!!! ` lines concurrently, at scheduler-dependent
  positions; no claim below depends on those entries (they never carry a
  `>>> ` or `<<< ` prefix), so the model tracks the main-sequence appends
  and records the drain only through the `drainJoined` flag.
* The exception text for a failed OS write is environment-dependent; it is
  modelled abstractly as `"write failed: " ++ cmd`.  The texts of the two
  exceptions raised by the source itself (`IndexError` from
  `line.split(" ")[1]` and `RuntimeError("Engine did not return a move.")`)
  are the real CPython / source texts.
* Python `str.strip` is modelled by `pyStrip` (drop whitespace at both
  ends), `line.split(" ")` by `pySplitSpace` (split on each single space,
  keeping empty pieces, exactly as Python does), `line.startswith` by
  `pyStartswith` (prefix test).  They are written over the character list
  of the string so that every definition evaluates by kernel reduction.
* The ghost flags `killed`, `waited`, `drainJoined`, `reachedQuit` record,
  for a terminating run, whether `process.kill()` was attempted, whether
  `process.wait()` was awaited, whether `stderr_task` was awaited, and
  whether control reached the `send("quit")` statement (line 94).
-/

/-- Drop whitespace at both ends of a character list. -/
def stripL (l : List Char) : List Char :=
  ((l.dropWhile Char.isWhitespace).reverse.dropWhile Char.isWhitespace).reverse

/-- Python `str.strip()`. -/
def pyStrip (s : String) : String := ⟨stripL s.data⟩

/-- Python `str.split(" ")` on a character list: split at every single
space, keeping empty pieces between consecutive spaces and at the ends. -/
def splitSp : List Char → List (List Char)
  | [] => [[]]
  | c :: cs =>
    let r := splitSp cs
    if c = ' ' then [] :: r
    else
      match r with
      | [] => [[c]]
      | w :: ws => (c :: w) :: ws

/-- Python `str.split(" ")`. -/
def pySplitSpace (s : String) : List String := (splitSp s.data).map (⟨·⟩)

/-- Python `str.startswith(pre)`. -/
def pyStartswith (s pre : String) : Bool := pre.data.isPrefixOf s.data

/-- Split at every single whitespace character, keeping empty pieces
(helper for `wsTokens`). -/
def splitWs : List Char → List (List Char)
  | [] => [[]]
  | c :: cs =>
    let r := splitWs cs
    if c.isWhitespace then [] :: r
    else
      match r with
      | [] => [[c]]
      | w :: ws => (c :: w) :: ws

/-- Modelled from the spec: the whitespace-delimited tokens of a line, as
in the spec phrase "extract the second whitespace-delimited token" —
maximal runs of non-whitespace characters, i.e. Python `str.split()` with
no argument.  This is the spec-side notion the claim uses; the code
instead splits on each single space character (`pySplitSpace`). -/
def wsTokens (s : String) : List String :=
  ((splitWs s.data).filter (· ≠ [])).map (⟨·⟩)

/-- The observable behaviour of one spawned engine process. -/
structure EngineIO where
  stdout : List String
  stderr : List String
  writeOk : Nat → Bool

/-- State threaded through the sends: the transcript so far and the number
of writes already attempted on the engine stdin. -/
structure SState where
  log : List String
  nWrites : Nat
deriving DecidableEq

/-- `send` from the source: append the Sent transcript entry FIRST, then
perform the write, which may fail. `.error` carries the state as it is when
the write raises: the attempted command is already logged. -/
def send (io : EngineIO) (s : SState) (cmd : String) : Except SState SState :=
  let s' : SState := ⟨s.log ++ [">>> " ++ cmd], s.nWrites + 1⟩
  if io.writeOk s.nWrites then .ok s' else .error s'

/-- `readline` from the source, on a stream with remaining lines `stdout`:
returns the stripped line, the updated transcript (non-empty lines are
logged as Received, empty ones are not), and the remaining stream.  At
end-of-stream it returns the empty line without consuming anything. -/
def readlineM (log : List String) (stdout : List String) :
    String × List String × List String :=
  match stdout with
  | [] => ("", log, [])
  | raw :: rest =>
    let line := pyStrip raw
    if line = "" then (line, log, rest)
    else (line, log ++ ["<<< " ++ line], rest)

/-- The `while True: ... if line == target: break` loops of the source
(steps 3 and 4).  `none` models divergence: once the stream is exhausted,
`readline` yields `""` forever and the loop never breaks. -/
def readUntilTerm (target : String) (log : List String) :
    List String → Option (List String × List String)
  | [] => none
  | raw :: rest =>
    let r := readlineM log (raw :: rest)
    if r.1 = target then some (r.2.1, rest)
    else readUntilTerm target r.2.1 rest

/-- The best-move loop of the source (step 7):
`while True: line = await readline(); if line.startswith("bestmove"):
best_move = line.split(" ")[1]; break`.
Outcomes: `none` = divergence at end-of-stream; `.inl log` = the matched
line has no second space-delimited piece, so `[1]` raises `IndexError`;
`.inr (tok, log, rest)` = the token was extracted. -/
def readBest (log : List String) :
    List String → Option ((List String) ⊕ (String × List String × List String))
  | [] => none
  | raw :: rest =>
    let r := readlineM log (raw :: rest)
    if pyStartswith r.1 "bestmove" then
      match (pySplitSpace r.1)[1]? with
      | some tok => some (.inr (tok, r.2.1, rest))
      | none => some (.inl r.2.1)
    else readBest r.2.1 rest

/-- The exceptions that can reach the `except` block of `get_best_move`. -/
inductive SessionExc where
  | writeError (cmd : String)
  | indexError
  | noMove
deriving DecidableEq

/-- `str(e)` for each modelled exception.  The OS text of a failed pipe
write is environment-dependent and modelled abstractly. -/
def excMsg : SessionExc → String
  | .writeError cmd => "write failed: " ++ cmd
  | .indexError => "list index out of range"
  | .noMove => "Engine did not return a move."

/-- The result of a terminating run: the returned pair or the raised
`RuntimeError`, whose message is the joined transcript, i.e. the error
carries the accumulated transcript. -/
inductive RunResult where
  | ok (bestMove : String) (log : List String)
  | error (log : List String)
deriving DecidableEq

/-- A terminating run together with the process-lifecycle ghost flags. -/
structure Outcome where
  result : RunResult
  killed : Bool
  waited : Bool
  drainJoined : Bool
  reachedQuit : Bool
deriving DecidableEq

/-- The `except Exception` block (source lines 103-110): attempt
`process.kill()` (idempotent, exceptions swallowed), await
`process.wait()`, append the exception line, raise with the transcript.
`drainJoined`/`reachedQuit` keep whatever value they had when the
exception was raised: the block does not await `stderr_task`. -/
def handleExc (log : List String) (drainJoined reachedQuit : Bool)
    (e : SessionExc) : Outcome :=
  { result := .error (log ++ ["!!! Exception: " ++ excMsg e])
    killed := true
    waited := true
    drainJoined := drainJoined
    reachedQuit := reachedQuit }

/-- `get_best_move` from the source.  `none` = the coroutine never
terminates (a read loop stuck at end-of-stream, or an engine that stays
silent: either way no result is ever produced).  Note that
`timeout_seconds` is accepted but never used, exactly as in the source. -/
def get_best_move (io : EngineIO) (fen : String) (depth : Nat)
    (timeout_seconds : Nat) : Option Outcome :=
  match send io ⟨[], 0⟩ "uci" with
  | .error s => some (handleExc s.log false false (.writeError "uci"))
  | .ok s0 =>
    match readUntilTerm "uciok" s0.log io.stdout with
    | none => none
    | some (log1, rest1) =>
      match send io ⟨log1, s0.nWrites⟩ "isready" with
      | .error s => some (handleExc s.log false false (.writeError "isready"))
      | .ok s1 =>
        match readUntilTerm "readyok" s1.log rest1 with
        | none => none
        | some (log2, rest2) =>
          match send io ⟨log2, s1.nWrites⟩ ("position fen " ++ fen) with
          | .error s =>
            some (handleExc s.log false false
              (.writeError ("position fen " ++ fen)))
          | .ok s2 =>
            match send io s2 ("go depth " ++ toString depth) with
            | .error s =>
              some (handleExc s.log false false
                (.writeError ("go depth " ++ toString depth)))
            | .ok s3 =>
              match readBest s3.log rest2 with
              | none => none
              | some (.inl log4) =>
                some (handleExc log4 false false .indexError)
              | some (.inr (tok, log4, _)) =>
                match send io ⟨log4, s3.nWrites⟩ "quit" with
                | .error s =>
                  some (handleExc s.log false true (.writeError "quit"))
                | .ok s4 =>
                  if tok = "" then some (handleExc s4.log true true .noMove)
                  else
                    some { result := .ok tok s4.log
                           killed := false
                           waited := true
                           drainJoined := true
                           reachedQuit := true }

/-- `parse_uci_move` from the source: slices `move[0:2]`, `move[2:4]`, and
`move[4] if len(move) == 5 else None`; raises `ValueError` for length
below 4. -/
def parse_uci_move (move : String) :
    Except String (String × String × Option Char) :=
  if move.length < 4 then
    .error ("Invalid move string: " ++ move)
  else
    let from_sq : String := ⟨move.data.take 2⟩
    let to_sq : String := ⟨(move.data.drop 2).take 2⟩
    let promotion : Option Char :=
      if move.length = 5 then move.data.get? 4 else none
    .ok (from_sq, to_sq, promotion)

/-- Modelled from the spec: the caller-side parsing contract exactly as the
spec sentence states it, for comparison with `parse_uci_move` — a token of
length at least 4 parses into origin, destination, and the optional fifth
character as promotion piece, `none` when that character is absent. -/
def parse_uci_move_claimed (move : String) :
    Except String (String × String × Option Char) :=
  if move.length < 4 then
    .error ("Invalid move string: " ++ move)
  else
    .ok (⟨move.data.take 2⟩, ⟨(move.data.drop 2).take 2⟩, move.data.get? 4)

/-- A transcript entry is a Sent entry when it carries the source's
Sent prefix. -/
def isSent (e : String) : Bool :=
  ">>> ".data.isPrefixOf e.data

/-- The Sent entries of a transcript, in order. -/
def sentEntries (log : List String) : List String :=
  log.filter isSent

/-- The Received entries produced when the lines of `pre` are read and none
of them breaks the read loop. -/
def recvOf (pre : List String) : List String :=
  pre.filterMap fun l =>
    if pyStrip l = "" then none else some ("<<< " ++ pyStrip l)

deriving instance DecidableEq for Except

/-! ## Helper lemmas -/

theorem send_ok_log {io : EngineIO} {s : SState} {cmd : String} {s' : SState}
    (h : send io s cmd = .ok s') : s'.log = s.log ++ [">>> " ++ cmd] := by
  unfold send at h
  split at h
  · injection h with h2
    subst h2
    rfl
  · exact Except.noConfusion h

theorem send_err_log {io : EngineIO} {s : SState} {cmd : String} {s' : SState}
    (h : send io s cmd = .error s') : s'.log = s.log ++ [">>> " ++ cmd] := by
  unfold send at h
  split at h
  · exact Except.noConfusion h
  · injection h with h2
    subst h2
    rfl

theorem isSent_sent (c : String) : isSent (">>> " ++ c) = true := by
  unfold isSent
  rw [String.data_append, List.isPrefixOf_iff_prefix]
  exact List.prefix_append _ _

theorem isSent_recv (x : String) : isSent ("<<< " ++ x) = false := by
  unfold isSent
  rw [String.data_append]
  rfl

theorem recv_ne_quit (x : String) : ("<<< " ++ x) ≠ ">>> quit" := by
  intro h
  have h1 : ("<<< " ++ x).data = (">>> quit" : String).data := congrArg String.data h
  rw [String.data_append] at h1
  have h2 := congrArg List.head? h1
  exact (by decide : (some '<' : Option Char) ≠ some '>') h2

theorem exc_ne_quit (x : String) : ("!!! Exception: " ++ x) ≠ ">>> quit" := by
  intro h
  have h1 : ("!!! Exception: " ++ x).data = (">>> quit" : String).data :=
    congrArg String.data h
  rw [String.data_append] at h1
  have h2 := congrArg List.head? h1
  exact (by decide : (some '!' : Option Char) ≠ some '>') h2

theorem posfen_ne_quit (x : String) :
    (">>> " ++ ("position fen " ++ x)) ≠ ">>> quit" := by
  intro h
  have h1 := congrArg String.data h
  rw [String.data_append, String.data_append] at h1
  have h2 := congrArg (fun l => l.get? 4) h1
  exact (by decide : (some 'p' : Option Char) ≠ some 'q') h2

theorem godepth_ne_quit (x : String) :
    (">>> " ++ ("go depth " ++ x)) ≠ ">>> quit" := by
  intro h
  have h1 := congrArg String.data h
  rw [String.data_append, String.data_append] at h1
  have h2 := congrArg (fun l => l.get? 4) h1
  exact (by decide : (some 'g' : Option Char) ≠ some 'q') h2

theorem readUntilTerm_run (target : String) (htarget : target ≠ "")
    (pre : List String) (hpre : ∀ l ∈ pre, pyStrip l ≠ target)
    (tl : String) (htl : pyStrip tl = target) (rest log : List String) :
    readUntilTerm target log (pre ++ tl :: rest) =
      some (log ++ (recvOf pre ++ ["<<< " ++ target]), rest) := by
  induction pre generalizing log with
  | nil =>
    simp [readUntilTerm, readlineM, htl, htarget, recvOf]
  | cons l pre ih =>
    have hl : pyStrip l ≠ target := hpre l (List.mem_cons_self _ _)
    have hpre2 : ∀ x ∈ pre, pyStrip x ≠ target :=
      fun x hx => hpre x (List.mem_cons_of_mem _ hx)
    by_cases h0 : pyStrip l = ""
    · simp [readUntilTerm, readlineM, h0, Ne.symm htarget, recvOf, ih hpre2]
    · simp [readUntilTerm, readlineM, h0, hl, recvOf, ih hpre2,
        List.append_assoc]

theorem readBest_run_found (pre : List String)
    (hpre : ∀ l ∈ pre, pyStartswith (pyStrip l) "bestmove" = false)
    (b : String) (hb : pyStartswith (pyStrip b) "bestmove" = true)
    (m : String) (hm : (pySplitSpace (pyStrip b))[1]? = some m)
    (rest log : List String) :
    readBest log (pre ++ b :: rest) =
      some (.inr (m, log ++ (recvOf pre ++ ["<<< " ++ pyStrip b]), rest)) := by
  have hbne : pyStrip b ≠ "" := by
    intro h
    rw [h] at hb
    exact absurd hb (by decide)
  induction pre generalizing log with
  | nil =>
    simp [readBest, readlineM, hbne, hb, hm, recvOf]
  | cons l pre ih =>
    have hl := hpre l (List.mem_cons_self _ _)
    have hpre2 : ∀ x ∈ pre, pyStartswith (pyStrip x) "bestmove" = false :=
      fun x hx => hpre x (List.mem_cons_of_mem _ hx)
    by_cases h0 : pyStrip l = ""
    · simp [readBest, readlineM, h0, recvOf, ih hpre2,
        (by decide : pyStartswith "" "bestmove" = false)]
    · simp [readBest, readlineM, h0, hl, recvOf, ih hpre2, List.append_assoc]

theorem readBest_run_noTok (pre : List String)
    (hpre : ∀ l ∈ pre, pyStartswith (pyStrip l) "bestmove" = false)
    (b : String) (hb : pyStartswith (pyStrip b) "bestmove" = true)
    (hm : (pySplitSpace (pyStrip b))[1]? = none)
    (rest log : List String) :
    readBest log (pre ++ b :: rest) =
      some (.inl (log ++ (recvOf pre ++ ["<<< " ++ pyStrip b]))) := by
  have hbne : pyStrip b ≠ "" := by
    intro h
    rw [h] at hb
    exact absurd hb (by decide)
  induction pre generalizing log with
  | nil =>
    simp [readBest, readlineM, hbne, hb, hm, recvOf]
  | cons l pre ih =>
    have hl := hpre l (List.mem_cons_self _ _)
    have hpre2 : ∀ x ∈ pre, pyStartswith (pyStrip x) "bestmove" = false :=
      fun x hx => hpre x (List.mem_cons_of_mem _ hx)
    by_cases h0 : pyStrip l = ""
    · simp [readBest, readlineM, h0, recvOf, ih hpre2,
        (by decide : pyStartswith "" "bestmove" = false)]
    · simp [readBest, readlineM, h0, hl, recvOf, ih hpre2, List.append_assoc]

theorem readlineM_log (log : List String) (raw : String) (rest : List String) :
    ∃ E, (readlineM log (raw :: rest)).2.1 = log ++ E ∧
      ∀ e ∈ E, ∃ x, e = "<<< " ++ x := by
  simp only [readlineM]
  split
  · exact ⟨[], by simp, by simp⟩
  · refine ⟨["<<< " ++ pyStrip raw], by simp, ?_⟩
    intro e he
    simp only [List.mem_singleton] at he
    exact ⟨pyStrip raw, he⟩

theorem readUntilTerm_extend (target : String) (stdout : List String) :
    ∀ log log2 rest, readUntilTerm target log stdout = some (log2, rest) →
      ∃ E, log2 = log ++ E ∧ ∀ e ∈ E, ∃ x, e = "<<< " ++ x := by
  induction stdout with
  | nil =>
    intro log log2 rest h
    exact absurd h (by simp [readUntilTerm])
  | cons raw tail ih =>
    intro log log2 rest h
    simp only [readUntilTerm] at h
    split at h
    · obtain ⟨E, hE, hr⟩ := readlineM_log log raw tail
      injection h with h2
      have h3 : (readlineM log (raw :: tail)).2.1 = log2 := congrArg Prod.fst h2
      subst h3
      exact ⟨E, hE, hr⟩
    · obtain ⟨E1, hE1, hr1⟩ := readlineM_log log raw tail
      rw [hE1] at h
      obtain ⟨E2, hE2, hr2⟩ := ih (log ++ E1) log2 rest h
      refine ⟨E1 ++ E2, by rw [hE2, List.append_assoc], ?_⟩
      intro e he
      rcases List.mem_append.mp he with h4 | h4
      exacts [hr1 e h4, hr2 e h4]

theorem readBest_extend_inr (stdout : List String) :
    ∀ log tok log4 rest4,
      readBest log stdout = some (.inr (tok, log4, rest4)) →
      ∃ E, log4 = log ++ E ∧ ∀ e ∈ E, ∃ x, e = "<<< " ++ x := by
  induction stdout with
  | nil =>
    intro log tok log4 rest4 h
    exact absurd h (by simp [readBest])
  | cons raw tail ih =>
    intro log tok log4 rest4 h
    simp only [readBest] at h
    split at h
    · split at h
      · obtain ⟨E, hE, hr⟩ := readlineM_log log raw tail
        simp only [Option.some.injEq, Sum.inr.injEq, Prod.mk.injEq] at h
        obtain ⟨-, h4, -⟩ := h
        subst h4
        exact ⟨E, hE, hr⟩
      · exact absurd h (by simp)
    · obtain ⟨E1, hE1, hr1⟩ := readlineM_log log raw tail
      rw [hE1] at h
      obtain ⟨E2, hE2, hr2⟩ := ih (log ++ E1) tok log4 rest4 h
      refine ⟨E1 ++ E2, by rw [hE2, List.append_assoc], ?_⟩
      intro e he
      rcases List.mem_append.mp he with h4 | h4
      exacts [hr1 e h4, hr2 e h4]

theorem readBest_extend_inl (stdout : List String) :
    ∀ log log4, readBest log stdout = some (.inl log4) →
      ∃ E, log4 = log ++ E ∧ ∀ e ∈ E, ∃ x, e = "<<< " ++ x := by
  induction stdout with
  | nil =>
    intro log log4 h
    exact absurd h (by simp [readBest])
  | cons raw tail ih =>
    intro log log4 h
    simp only [readBest] at h
    split at h
    · split at h
      · exact absurd h (by simp)
      · obtain ⟨E, hE, hr⟩ := readlineM_log log raw tail
        simp only [Option.some.injEq, Sum.inl.injEq] at h
        subst h
        exact ⟨E, hE, hr⟩
    · obtain ⟨E1, hE1, hr1⟩ := readlineM_log log raw tail
      rw [hE1] at h
      obtain ⟨E2, hE2, hr2⟩ := ih (log ++ E1) log4 h
      refine ⟨E1 ++ E2, by rw [hE2, List.append_assoc], ?_⟩
      intro e he
      rcases List.mem_append.mp he with h4 | h4
      exacts [hr1 e h4, hr2 e h4]

/-! ## Claim theorems -/

/-- C1: the claim asserts that `get_best_move` enforces the
`timeoutSeconds` deadline and raises a Timeout error when an engine never
emits `uciok`.  The code does neither: the `timeout_seconds` parameter is
never consulted (the result is the same for every value of it), and with
an engine that emits nothing the `uciok` read loop never terminates — the
call runs indefinitely instead of returning a Timeout error. -/
theorem c1_timeout_not_enforced :
    (∀ (io : EngineIO) (fen : String) (depth t1 t2 : Nat),
      get_best_move io fen depth t1 = get_best_move io fen depth t2) ∧
    (∀ (fen : String) (depth t : Nat),
      get_best_move ⟨[], [], fun _ => true⟩ fen depth t = none) :=
  ⟨fun _ _ _ _ _ => rfl, fun _ _ _ => rfl⟩

/-- C2: the claim asserts that when the output stream closes before a
required terminator, `get_best_move` terminates the process and raises a
ProtocolViolation-class error.  The code does not: at end-of-stream the
readline coroutine yields the empty line forever, so the `bestmove` read
loop (here, for a stub that exits right after `readyok`) spins without
ever raising — the run diverges instead of producing the claimed error. -/
theorem c2_crash_not_detected :
    ∀ (fen : String) (depth t : Nat),
      get_best_move ⟨["uciok", "readyok"], [], fun _ => true⟩ fen depth t =
        none :=
  fun _ _ _ => rfl

/-- C3: for every run of `get_best_move` that returns or raises (i.e.
produces an `Outcome` rather than diverging), `process.wait()` has been
awaited before control reaches the caller: the process is reaped on every
terminating path, success and failure alike. -/
theorem c3_process_reaped (io : EngineIO) (fen : String) (depth t : Nat)
    (o : Outcome) (h : get_best_move io fen depth t = some o) :
    o.waited = true := by
  unfold get_best_move at h
  repeat' split at h
  all_goals first
    | exact Option.noConfusion h
    | (cases h; rfl)

/-- Witness for C3 at a concrete successful run. -/
theorem c3_witness :
    get_best_move ⟨["uciok", "readyok", "bestmove e2e4"], [], fun _ => true⟩
        "F" 3 10 =
      some { result := .ok "e2e4"
               [">>> uci", "<<< uciok", ">>> isready", "<<< readyok",
                ">>> position fen F", ">>> go depth 3", "<<< bestmove e2e4",
                ">>> quit"]
             killed := false, waited := true, drainJoined := true
             reachedQuit := true } ∧
    ({ result := .ok "e2e4"
         [">>> uci", "<<< uciok", ">>> isready", "<<< readyok",
          ">>> position fen F", ">>> go depth 3", "<<< bestmove e2e4",
          ">>> quit"]
       killed := false, waited := true, drainJoined := true
       reachedQuit := true } : Outcome).waited = true :=
  ⟨by decide,
   c3_process_reaped ⟨["uciok", "readyok", "bestmove e2e4"], [], fun _ => true⟩
     "F" 3 10
     { result := .ok "e2e4"
         [">>> uci", "<<< uciok", ">>> isready", "<<< readyok",
          ">>> position fen F", ">>> go depth 3", "<<< bestmove e2e4",
          ">>> quit"]
       killed := false, waited := true, drainJoined := true
       reachedQuit := true } (by decide)⟩

/-- C4 counterexample: the claim asserts the stderr drain task is awaited
on every exit path.  On the exit path taken when the very first write
fails, the call raises with `drainJoined = false`: the `except` block
kills and awaits the process but never awaits `stderr_task`. -/
theorem c4_cex :
    get_best_move ⟨[], ["diag"], fun _ => false⟩ "F" 1 1 =
      some { result := .error [">>> uci", "!!! Exception: write failed: uci"]
             killed := true, waited := true, drainJoined := false
             reachedQuit := false } := by decide

/-- C4 amended: the drain task is awaited before return on the successful
path (and, having been awaited at that point, also on the late no-move
failure path), but not on the exception paths; so: every run that returns
a best move has joined the diagnostic drain. -/
theorem c4_amended (io : EngineIO) (fen : String) (depth t : Nat)
    (o : Outcome) (h : get_best_move io fen depth t = some o)
    (tok : String) (log : List String) (hr : o.result = .ok tok log) :
    o.drainJoined = true := by
  unfold get_best_move at h
  repeat' split at h
  all_goals first
    | exact Option.noConfusion h
    | (cases h; rfl)
    | (cases h; exact absurd hr (by simp [handleExc]))

/-- Witness for C4 amended at a concrete successful run. -/
theorem c4_witness :
    get_best_move ⟨["uciok", "readyok", "bestmove d2d4"], [], fun _ => true⟩
        "G" 4 10 =
      some { result := .ok "d2d4"
               [">>> uci", "<<< uciok", ">>> isready", "<<< readyok",
                ">>> position fen G", ">>> go depth 4", "<<< bestmove d2d4",
                ">>> quit"]
             killed := false, waited := true, drainJoined := true
             reachedQuit := true } ∧
    ({ result := .ok "d2d4"
         [">>> uci", "<<< uciok", ">>> isready", "<<< readyok",
          ">>> position fen G", ">>> go depth 4", "<<< bestmove d2d4",
          ">>> quit"]
       killed := false, waited := true, drainJoined := true
       reachedQuit := true } : Outcome).drainJoined = true :=
  ⟨by decide,
   c4_amended ⟨["uciok", "readyok", "bestmove d2d4"], [], fun _ => true⟩
     "G" 4 10
     { result := .ok "d2d4"
         [">>> uci", "<<< uciok", ">>> isready", "<<< readyok",
          ">>> position fen G", ">>> go depth 4", "<<< bestmove d2d4",
          ">>> quit"]
       killed := false, waited := true, drainJoined := true
       reachedQuit := true } (by decide) "d2d4"
     [">>> uci", "<<< uciok", ">>> isready", "<<< readyok",
      ">>> position fen G", ">>> go depth 4", "<<< bestmove d2d4",
      ">>> quit"] rfl⟩

/-- C7 counterexample: the claim covers every token of length at least 4
and says the fifth character, when present, is returned as promotion.
`parse_uci_move_claimed` is that reading; the code disagrees on the
length-6 token below, returning no promotion although a fifth character
is present. -/
theorem c7_cex :
    parse_uci_move "e7e8qx" = .ok ("e7", "e8", none) ∧
    parse_uci_move_claimed "e7e8qx" = .ok ("e7", "e8", some 'q') ∧
    parse_uci_move "e7e8qx" ≠ parse_uci_move_claimed "e7e8qx" := by
  refine ⟨rfl, rfl, ?_⟩
  decide

/-- C7 amended: tokens shorter than 4 raise; for a token of length at
least 4 the first two characters are the origin and the next two the
destination, and the promotion character is returned exactly when the
length is 5 — for any longer token the promotion is `none` even though a
fifth character exists. -/
theorem c7_amended (move : String) :
    (move.length < 4 →
      parse_uci_move move = .error ("Invalid move string: " ++ move)) ∧
    (4 ≤ move.length →
      parse_uci_move move =
        .ok (⟨move.data.take 2⟩, ⟨(move.data.drop 2).take 2⟩,
          if move.length = 5 then move.data.get? 4 else none)) := by
  constructor
  · intro h
    simp [parse_uci_move, h]
  · intro h
    simp [parse_uci_move, Nat.not_lt.mpr h]

/-- Witness for C7 amended at the two concrete tokens of the source's own
doc string. -/
theorem c7_witness :
    4 ≤ "e7e8q".length ∧ parse_uci_move "e7e8q" = .ok ("e7", "e8", some 'q') ∧
    4 ≤ "e2e4".length ∧ parse_uci_move "e2e4" = .ok ("e2", "e4", none) :=
  ⟨by decide, ((c7_amended "e7e8q").2 (by decide)).trans rfl,
   by decide, ((c7_amended "e2e4").2 (by decide)).trans rfl⟩

/-- C8: `send` appends the Sent transcript entry before issuing the write,
so the entry is present in the resulting state whether the write succeeds
or fails; consequently, when the very first write fails, the raised error
already carries the attempted `uci` command in its transcript. -/
theorem c8_sent_logged_before_write :
    (∀ (io : EngineIO) (s : SState) (cmd : String) (s' : SState),
      send io s cmd = .ok s' ∨ send io s cmd = .error s' →
      s'.log = s.log ++ [">>> " ++ cmd]) ∧
    (∀ (io : EngineIO) (fen : String) (depth t : Nat),
      io.writeOk 0 = false →
      get_best_move io fen depth t =
        some { result := .error [">>> uci", "!!! Exception: write failed: uci"]
               killed := true, waited := true, drainJoined := false
               reachedQuit := false }) := by
  constructor
  · rintro io s cmd s' (h | h)
    · exact send_ok_log h
    · exact send_err_log h
  · intro io fen depth t hw
    unfold get_best_move send
    simp [hw, handleExc, excMsg]

/-- Witness for C8: a failing write still leaves the attempted command in
the log, and the whole run carries it in the raised error. -/
theorem c8_witness :
    send ⟨[], [], fun _ => false⟩ ⟨["x"], 0⟩ "uci" = .error ⟨["x", ">>> uci"], 1⟩ ∧
    (⟨["x", ">>> uci"], 1⟩ : SState).log = ["x"] ++ [">>> " ++ "uci"] ∧
    get_best_move ⟨["info"], [], fun _ => false⟩ "H" 2 7 =
      some { result := .error [">>> uci", "!!! Exception: write failed: uci"]
             killed := true, waited := true, drainJoined := false
             reachedQuit := false } :=
  ⟨by decide,
   c8_sent_logged_before_write.1 ⟨[], [], fun _ => false⟩ ⟨["x"], 0⟩ "uci" _
     (Or.inr (by decide)),
   c8_sent_logged_before_write.2 ⟨["info"], [], fun _ => false⟩ "H" 2 7 rfl⟩

/-- C9: `readline` consumes exactly one pending line; when the stripped
line is non-empty it is appended to the transcript as a Received entry,
and when it strips to empty nothing is appended. -/
theorem c9_readline_logging (log : List String) (raw : String)
    (rest : List String) :
    (readlineM log (raw :: rest)).2.2 = rest ∧
    (readlineM log (raw :: rest)).1 = pyStrip raw ∧
    (pyStrip raw ≠ "" →
      (readlineM log (raw :: rest)).2.1 = log ++ ["<<< " ++ pyStrip raw]) ∧
    (pyStrip raw = "" → (readlineM log (raw :: rest)).2.1 = log) := by
  simp only [readlineM]
  split <;> simp_all

/-- Witness for C9 at one non-empty and one whitespace-only line. -/
theorem c9_witness :
    pyStrip " uciok " ≠ "" ∧
    (readlineM ["a"] [" uciok ", "z"]).2.1 = ["a", "<<< uciok"] ∧
    pyStrip " " = "" ∧
    (readlineM ["a"] [" ", "z"]).2.1 = ["a"] :=
  ⟨by decide,
   ((c9_readline_logging ["a"] " uciok " ["z"]).2.2.1 (by decide)).trans rfl,
   by decide,
   (c9_readline_logging ["a"] " " ["z"]).2.2.2 (by decide)⟩

/-- C6 counterexample: the claim promises the second whitespace-delimited
token of the bestmove line.  At the double-space line below that token is
e7e8q, but the code splits on each single space, extracts the empty second
piece, treats it as falsy, and raises "Engine did not return a move."
instead of returning e7e8q. -/
theorem c6_cex :
    (wsTokens (pyStrip "bestmove  e7e8q"))[1]? = some "e7e8q" ∧
    get_best_move ⟨["uciok", "readyok", "bestmove  e7e8q"], [],
        fun _ => true⟩ "F" 1 10 =
      some { result := .error
               [">>> uci", "<<< uciok", ">>> isready", "<<< readyok",
                ">>> position fen F", ">>> go depth 1",
                "<<< bestmove  e7e8q", ">>> quit",
                "!!! Exception: Engine did not return a move."]
             killed := true, waited := true, drainJoined := true
             reachedQuit := true } :=
  ⟨by decide, by decide⟩

/-- C6 amended: whenever the handshake completes and the engine then emits
a line whose stripped text starts with `bestmove`, the code takes the
second single-space-delimited piece `m` of that line (split on each single
space character, not on whitespace runs).  If `m` is non-empty the run
returns exactly `m` — so a tab-separated remainder is returned whole, not
cut at the tab.  If `m` is empty (consecutive spaces), the run instead
raises "Engine did not return a move." after quit, wait and drain join. -/
theorem c6_bestmove_extraction (io : EngineIO) (fen : String) (depth t : Nat)
    (pre1 pre2 pre3 rest : List String) (u r b m : String)
    (hw : ∀ k, io.writeOk k = true)
    (hstdout : io.stdout = pre1 ++ u :: (pre2 ++ r :: (pre3 ++ b :: rest)))
    (hu : pyStrip u = "uciok") (hr : pyStrip r = "readyok")
    (hpre1 : ∀ l ∈ pre1, pyStrip l ≠ "uciok")
    (hpre2 : ∀ l ∈ pre2, pyStrip l ≠ "readyok")
    (hpre3 : ∀ l ∈ pre3, pyStartswith (pyStrip l) "bestmove" = false)
    (hb : pyStartswith (pyStrip b) "bestmove" = true)
    (hm : (pySplitSpace (pyStrip b))[1]? = some m) :
    get_best_move io fen depth t =
      some (if m = "" then
              { result := .error
                  (">>> uci" :: (recvOf pre1 ++ "<<< uciok" :: ">>> isready" ::
                    (recvOf pre2 ++ "<<< readyok" ::
                      (">>> " ++ ("position fen " ++ fen)) ::
                        (">>> " ++ ("go depth " ++ toString depth)) ::
                          (recvOf pre3 ++ ["<<< " ++ pyStrip b, ">>> quit",
                            "!!! Exception: Engine did not return a move."]))))
                killed := true
                waited := true
                drainJoined := true
                reachedQuit := true }
            else
              { result := .ok m
                  (">>> uci" :: (recvOf pre1 ++ "<<< uciok" :: ">>> isready" ::
                    (recvOf pre2 ++ "<<< readyok" ::
                      (">>> " ++ ("position fen " ++ fen)) ::
                        (">>> " ++ ("go depth " ++ toString depth)) ::
                          (recvOf pre3 ++ ["<<< " ++ pyStrip b, ">>> quit"]))))
                killed := false
                waited := true
                drainJoined := true
                reachedQuit := true }) := by
  by_cases hm0 : m = ""
  · simp only [get_best_move, hstdout]
    simp [send, hw, readUntilTerm_run "uciok" (by decide) pre1 hpre1 u hu,
      readUntilTerm_run "readyok" (by decide) pre2 hpre2 r hr,
      readBest_run_found pre3 hpre3 b hb m hm, hm0, handleExc, excMsg]
  · simp only [get_best_move, hstdout]
    simp [send, hw, readUntilTerm_run "uciok" (by decide) pre1 hpre1 u hu,
      readUntilTerm_run "readyok" (by decide) pre2 hpre2 r hr,
      readBest_run_found pre3 hpre3 b hb m hm, hm0]

/-- Witness for C6: the stub of the spec emitting `uciok`, `readyok`, then
a ponder-carrying bestmove line yields exactly the token e7e8q; and a
tab-separated bestmove line yields the whole space-delimited remainder,
tab included. -/
theorem c6_witness :
    (get_best_move
        ⟨["uciok", "readyok", "bestmove e7e8q ponder a1a2"], [],
          fun _ => true⟩ "startpos" 15 9 =
      some { result := .ok "e7e8q"
               [">>> uci", "<<< uciok", ">>> isready", "<<< readyok",
                ">>> position fen startpos", ">>> go depth 15",
                "<<< bestmove e7e8q ponder a1a2", ">>> quit"]
             killed := false, waited := true, drainJoined := true
             reachedQuit := true }) ∧
    (get_best_move
        ⟨["uciok", "readyok", "bestmove x\ty"], [], fun _ => true⟩
          "W" 4 9 =
      some { result := .ok "x\ty"
               [">>> uci", "<<< uciok", ">>> isready", "<<< readyok",
                ">>> position fen W", ">>> go depth 4",
                "<<< bestmove x\ty", ">>> quit"]
             killed := false, waited := true, drainJoined := true
             reachedQuit := true }) :=
  ⟨(c6_bestmove_extraction
      ⟨["uciok", "readyok", "bestmove e7e8q ponder a1a2"], [], fun _ => true⟩
      "startpos" 15 9 [] [] [] [] "uciok" "readyok"
      "bestmove e7e8q ponder a1a2" "e7e8q" (fun _ => rfl) rfl (by decide)
      (by decide) (by simp) (by simp) (by simp) (by decide)
      (by decide)).trans (by decide),
   (c6_bestmove_extraction
      ⟨["uciok", "readyok", "bestmove x\ty"], [], fun _ => true⟩
      "W" 4 9 [] [] [] [] "uciok" "readyok"
      "bestmove x\ty" "x\ty" (fun _ => rfl) rfl (by decide)
      (by decide) (by simp) (by simp) (by simp) (by decide)
      (by decide)).trans (by decide)⟩

/-- C10: if, after the handshake, the first line whose stripped text starts
with `bestmove` has no second space-delimited token, the run does not
return a result: the out-of-range access raises, the failure branch kills
and awaits the process (without awaiting the drain), and the error carries
the accumulated transcript plus the IndexError line. -/
theorem c10_missing_token_aborts (io : EngineIO) (fen : String)
    (depth t : Nat) (pre1 pre2 pre3 rest : List String) (u r b : String)
    (hw : ∀ k, io.writeOk k = true)
    (hstdout : io.stdout = pre1 ++ u :: (pre2 ++ r :: (pre3 ++ b :: rest)))
    (hu : pyStrip u = "uciok") (hr : pyStrip r = "readyok")
    (hpre1 : ∀ l ∈ pre1, pyStrip l ≠ "uciok")
    (hpre2 : ∀ l ∈ pre2, pyStrip l ≠ "readyok")
    (hpre3 : ∀ l ∈ pre3, pyStartswith (pyStrip l) "bestmove" = false)
    (hb : pyStartswith (pyStrip b) "bestmove" = true)
    (hm : (pySplitSpace (pyStrip b))[1]? = none) :
    get_best_move io fen depth t =
      some { result := .error
               (">>> uci" :: (recvOf pre1 ++ "<<< uciok" :: ">>> isready" ::
                 (recvOf pre2 ++ "<<< readyok" ::
                   (">>> " ++ ("position fen " ++ fen)) ::
                     (">>> " ++ ("go depth " ++ toString depth)) ::
                       (recvOf pre3 ++ ["<<< " ++ pyStrip b,
                         "!!! Exception: list index out of range"]))))
             killed := true, waited := true, drainJoined := false
             reachedQuit := false } := by
  simp only [get_best_move, hstdout]
  simp [send, hw, readUntilTerm_run "uciok" (by decide) pre1 hpre1 u hu,
    readUntilTerm_run "readyok" (by decide) pre2 hpre2 r hr,
    readBest_run_noTok pre3 hpre3 b hb hm, handleExc, excMsg]

/-- Witness for C10: the bare line bestmove aborts the run with the
IndexError transcript entry, the process killed and awaited. -/
theorem c10_witness :
    get_best_move ⟨["uciok", "readyok", "bestmove"], [], fun _ => true⟩
        "K" 2 10 =
      some { result := .error
               [">>> uci", "<<< uciok", ">>> isready", "<<< readyok",
                ">>> position fen K", ">>> go depth 2", "<<< bestmove",
                "!!! Exception: list index out of range"]
             killed := true, waited := true, drainJoined := false
             reachedQuit := false } :=
  (c10_missing_token_aborts
    ⟨["uciok", "readyok", "bestmove"], [], fun _ => true⟩ "K" 2 10
    [] [] [] [] "uciok" "readyok" "bestmove" (fun _ => rfl) rfl (by decide)
    (by decide) (by simp) (by simp) (by simp) (by decide)
    (by decide)).trans (by decide)

theorem sentEntries_append (a b : List String) :
    sentEntries (a ++ b) = sentEntries a ++ sentEntries b :=
  List.filter_append a b

theorem sentEntries_recv_nil {E : List String}
    (hE : ∀ e ∈ E, ∃ x, e = "<<< " ++ x) : sentEntries E = [] := by
  rw [sentEntries, List.filter_eq_nil_iff]
  intro a ha
  obtain ⟨x, hx⟩ := hE a ha
  rw [hx]
  simp [isSent_recv]

theorem sentEntries_sent (c : String) :
    sentEntries [">>> " ++ c] = [">>> " ++ c] := by
  simp [sentEntries, List.filter_cons, isSent_sent c]

theorem quit_notmem_recv {E : List String}
    (hE : ∀ e ∈ E, ∃ x, e = "<<< " ++ x) : ">>> quit" ∉ E := by
  intro hmem
  obtain ⟨x, hx⟩ := hE _ hmem
  exact recv_ne_quit x hx.symm

/-- C5: in every terminating run, if the run succeeded then the Sent
entries of the returned transcript are exactly the five commands in
protocol order, and if the run aborted before the quit step (line 94 was
never reached) then no quit entry occurs anywhere in the transcript
carried by the error. -/
theorem c5_handshake_order (io : EngineIO) (fen : String) (depth t : Nat)
    (o : Outcome) (h : get_best_move io fen depth t = some o) :
    (∀ tok log, o.result = .ok tok log →
      sentEntries log =
        [">>> uci", ">>> isready", ">>> " ++ ("position fen " ++ fen),
         ">>> " ++ ("go depth " ++ toString depth), ">>> quit"]) ∧
    (∀ log, o.result = .error log → o.reachedQuit = false →
      ">>> quit" ∉ log) := by
  have nq_exc : ∀ x, ">>> quit" ≠ "!!! Exception: " ++ x :=
    fun x => (exc_ne_quit x).symm
  have nq_pos : ">>> quit" ≠ ">>> " ++ ("position fen " ++ fen) :=
    (posfen_ne_quit fen).symm
  have nq_go : ">>> quit" ≠ ">>> " ++ ("go depth " ++ toString depth) :=
    (godepth_ne_quit (toString depth)).symm
  unfold get_best_move at h
  split at h
  -- branch: the uci write failed
  next s heq =>
    cases h
    refine ⟨fun tok log hr => absurd hr (by simp [handleExc]), ?_⟩
    intro log hrr hq
    have hs := send_err_log heq
    simp only [handleExc] at hrr
    injection hrr with hrr
    subst hrr
    rw [hs]
    simp [List.mem_append, excMsg, nq_exc]
  next s0 heq0 =>
    split at h
    -- branch: the uciok loop never breaks
    next => exact Option.noConfusion h
    next log1 rest1 heq1 =>
      obtain ⟨E1, hE1, hrec1⟩ :=
        readUntilTerm_extend "uciok" io.stdout s0.log log1 rest1 heq1
      have hs0 := send_ok_log heq0
      have nqE1 : ">>> quit" ∉ E1 := quit_notmem_recv hrec1
      split at h
      -- branch: the isready write failed
      next s heq2 =>
        cases h
        refine ⟨fun tok log hr => absurd hr (by simp [handleExc]), ?_⟩
        intro log hrr hq
        have hs := send_err_log heq2
        simp only [handleExc] at hrr
        injection hrr with hrr
        subst hrr
        rw [hs, hE1, hs0]
        simp [List.mem_append, excMsg, nq_exc, nqE1]
      next s1 heq2 =>
        split at h
        -- branch: the readyok loop never breaks
        next => exact Option.noConfusion h
        next log2 rest2 heq3 =>
          obtain ⟨E2, hE2, hrec2⟩ :=
            readUntilTerm_extend "readyok" rest1 s1.log log2 rest2 heq3
          have hs1 := send_ok_log heq2
          have nqE2 : ">>> quit" ∉ E2 := quit_notmem_recv hrec2
          split at h
          -- branch: the position write failed
          next s heq4 =>
            cases h
            refine ⟨fun tok log hr => absurd hr (by simp [handleExc]), ?_⟩
            intro log hrr hq
            have hs := send_err_log heq4
            simp only [handleExc] at hrr
            injection hrr with hrr
            subst hrr
            rw [hs, hE2, hs1, hE1, hs0]
            simp [List.mem_append, excMsg, nq_exc, nqE1, nqE2, nq_pos]
          next s2 heq4 =>
            split at h
            -- branch: the go write failed
            next s heq5 =>
              cases h
              refine ⟨fun tok log hr => absurd hr (by simp [handleExc]), ?_⟩
              intro log hrr hq
              have hs := send_err_log heq5
              have hs2 := send_ok_log heq4
              simp only [handleExc] at hrr
              injection hrr with hrr
              subst hrr
              rw [hs, hs2, hE2, hs1, hE1, hs0]
              simp [List.mem_append, excMsg, nq_exc, nqE1, nqE2, nq_pos,
                nq_go]
            next s3 heq5 =>
              have hs2 := send_ok_log heq4
              have hs3 := send_ok_log heq5
              split at h
              -- branch: the bestmove loop never breaks
              next => exact Option.noConfusion h
              -- branch: the bestmove line has no second token
              next log4 heq6 =>
                cases h
                refine
                  ⟨fun tok log hr => absurd hr (by simp [handleExc]), ?_⟩
                intro log hrr hq
                obtain ⟨E3, hE3, hrec3⟩ :=
                  readBest_extend_inl rest2 s3.log log4 heq6
                have nqE3 : ">>> quit" ∉ E3 := quit_notmem_recv hrec3
                simp only [handleExc] at hrr
                injection hrr with hrr
                subst hrr
                rw [hE3, hs3, hs2, hE2, hs1, hE1, hs0]
                simp [List.mem_append, excMsg, nq_exc, nqE1, nqE2, nqE3,
                  nq_pos, nq_go]
              next tok log4 r4 heq6 =>
                obtain ⟨E3, hE3, hrec3⟩ :=
                  readBest_extend_inr rest2 s3.log tok log4 r4 heq6
                have nqE3 : ">>> quit" ∉ E3 := quit_notmem_recv hrec3
                split at h
                -- branch: the quit write failed (quit was reached)
                next s heq7 =>
                  cases h
                  refine
                    ⟨fun tok0 log hr => absurd hr (by simp [handleExc]), ?_⟩
                  intro log hrr hq
                  exact absurd hq (by simp [handleExc])
                next s4 heq7 =>
                  have hs4 := send_ok_log heq7
                  split at h
                  -- branch: the extracted token is empty -> no-move error,
                  -- raised after quit/wait/join
                  next htok =>
                    cases h
                    refine
                      ⟨fun tok0 log hr => absurd hr (by simp [handleExc]),
                        ?_⟩
                    intro log hrr hq
                    exact absurd hq (by simp [handleExc])
                  -- branch: success
                  next htok =>
                    cases h
                    refine ⟨?_, fun log hrr hq => absurd hrr (by simp)⟩
                    intro tok0 log hr
                    simp only at hr
                    injection hr with hr1 hr2
                    subst hr2
                    rw [hs4, hE3, hs3, hs2, hE2, hs1, hE1, hs0]
                    have n1 : List.filter isSent E1 = [] :=
                      sentEntries_recv_nil hrec1
                    have n2 : List.filter isSent E2 = [] :=
                      sentEntries_recv_nil hrec2
                    have n3 : List.filter isSent E3 = [] :=
                      sentEntries_recv_nil hrec3
                    simp [sentEntries, List.filter_append, List.filter_cons,
                      isSent_sent, n1, n2, n3,
                      (by decide : isSent ">>> uci" = true),
                      (by decide : isSent ">>> isready" = true),
                      (by decide : isSent ">>> quit" = true)]

/-- Witness for C5: a concrete successful run has exactly the five Sent
entries in order, and a concrete aborting run (IndexError before quit)
carries no quit entry in its transcript. -/
theorem c5_witness :
    get_best_move ⟨["uciok", "readyok", "bestmove c7c5 x"], [], fun _ => true⟩
        "P" 5 10 =
      some { result := .ok "c7c5"
               [">>> uci", "<<< uciok", ">>> isready", "<<< readyok",
                ">>> position fen P", ">>> go depth 5",
                "<<< bestmove c7c5 x", ">>> quit"]
             killed := false, waited := true, drainJoined := true
             reachedQuit := true } ∧
    sentEntries
        [">>> uci", "<<< uciok", ">>> isready", "<<< readyok",
         ">>> position fen P", ">>> go depth 5", "<<< bestmove c7c5 x",
         ">>> quit"] =
      [">>> uci", ">>> isready", ">>> position fen P", ">>> go depth 5",
       ">>> quit"] ∧
    ">>> quit" ∉
      [">>> uci", "<<< uciok", ">>> isready", "<<< readyok",
       ">>> position fen Q", ">>> go depth 3", "<<< bestmove",
       "!!! Exception: list index out of range"] :=
  ⟨by decide,
   (c5_handshake_order
      ⟨["uciok", "readyok", "bestmove c7c5 x"], [], fun _ => true⟩ "P" 5 10
      { result := .ok "c7c5"
          [">>> uci", "<<< uciok", ">>> isready", "<<< readyok",
           ">>> position fen P", ">>> go depth 5", "<<< bestmove c7c5 x",
           ">>> quit"]
        killed := false, waited := true, drainJoined := true
        reachedQuit := true } (by decide)).1 "c7c5"
     [">>> uci", "<<< uciok", ">>> isready", "<<< readyok",
      ">>> position fen P", ">>> go depth 5", "<<< bestmove c7c5 x",
      ">>> quit"] rfl,
   (c5_handshake_order
      ⟨["uciok", "readyok", "bestmove"], [], fun _ => true⟩ "Q" 3 10
      { result := .error
          [">>> uci", "<<< uciok", ">>> isready", "<<< readyok",
           ">>> position fen Q", ">>> go depth 3", "<<< bestmove",
           "!!! Exception: list index out of range"]
        killed := true, waited := true, drainJoined := false
        reachedQuit := false } (by decide)).2
     [">>> uci", "<<< uciok", ">>> isready", "<<< readyok",
      ">>> position fen Q", ">>> go depth 3", "<<< bestmove",
      "!!! Exception: list index out of range"] rfl rfl⟩
